import Mathlib

/-!
Verification development for the map-region capture and tile-stitching
pipeline of the Unified AI-Driven GIS Analytics Platform (a React/Leaflet
front end).  The pipeline lives in `handleAnalyzeMapView` of
`src/components/MapComponent.tsx`; the AI response handling lives in
`src/services/geminiService.ts` and `src/components/AnalysisSection.tsx`.

Modelling conventions:
* pixel coordinates are rationals (the browser computes with IEEE floats;
  Leaflet's `project` returns fractional pixel coordinates),
* tile indices are integers,
* canvases are idealized raster surfaces: a width, a height, and a
  colour-valued function on the rational plane,
* browser capabilities (tile fetches, `canvas.getContext`,
  `canvas.toBlob`, the projected corner points) are inputs of the model,
* JavaScript exceptions are `Except` values; `Promise.all` is a function
  on lists of `Except` values.
-/

namespace GIS

/-- A point in pixel space, as Leaflet's `L.Point` (float coordinates). -/
structure Point where
  x : ℚ
  y : ℚ

/-- A pixel-space rectangle, as Leaflet's `L.Bounds`: componentwise
minimum and maximum corner. -/
structure Bounds where
  min : Point
  max : Point

/-- Leaflet's `L.bounds(a, b)`: normalizes two corner points into
min/max form. -/
def lbounds (a b : Point) : Bounds :=
  ⟨⟨min a.x b.x, min a.y b.y⟩, ⟨max a.x b.x, max a.y b.y⟩⟩

/-- Leaflet's `Bounds.getSize()`: `max - min`, componentwise. -/
def Bounds.getSize (b : Bounds) : Point :=
  ⟨b.max.x - b.min.x, b.max.y - b.min.y⟩

/-- Leaflet's `Point.divideBy(n)`. -/
def Point.divideBy (p : Point) (n : ℚ) : Point :=
  ⟨p.x / n, p.y / n⟩

/-- Leaflet's `Point.floor()`: componentwise floor, yielding an integer
grid point. -/
def Point.floorPt (p : Point) : ℤ × ℤ :=
  (⌊p.x⌋, ⌊p.y⌋)

/-- An integer tile-index rectangle (`L.Bounds` over floored points). -/
structure IntBounds where
  min : ℤ × ℤ
  max : ℤ × ℤ

/-- Leaflet's `L.bounds` applied to two integer grid points. -/
def lboundsInt (a b : ℤ × ℤ) : IntBounds :=
  ⟨(min a.1 b.1, min a.2 b.2), (max a.1 b.1, max a.2 b.2)⟩

/-- Step 3 of `handleAnalyzeMapView`:
`tileRange = L.bounds(pixelBounds.min.divideBy(tileSize).floor(),
pixelBounds.max.divideBy(tileSize).floor())` with `tileSize = 256`. -/
def tileRangeOf (pb : Bounds) : IntBounds :=
  lboundsInt (pb.min.divideBy 256).floorPt (pb.max.divideBy 256).floorPt

/-- The integer interval `[a..b]`, inclusive, as a list — the index
sequence of a `for (let i = a; i <= b; i++)` loop. -/
def intRange (a b : ℤ) : List ℤ :=
  (List.range (b - a + 1).toNat).map fun n : ℕ => a + (n : ℤ)

/-- The nested `x`/`y` loops of step 4 of `handleAnalyzeMapView`: one
tile request per index pair in the inclusive tile range, `x` outer,
`y` inner. -/
def tileIndices (tr : IntBounds) : List (ℤ × ℤ) :=
  (intRange tr.min.1 tr.max.1).flatMap fun x =>
    (intRange tr.min.2 tr.max.2).map fun y => (x, y)

/-- The tile-grid cell containing pixel position `p` at tile size 256. -/
def tileOf (p : Point) : ℤ × ℤ :=
  (⌊p.x / 256⌋, ⌊p.y / 256⌋)

/-- Pixel position `p` lies inside tile `t`: each tile covers a
half-open 256×256 square of pixel space. -/
def coversPx (t : ℤ × ℤ) (p : Point) : Prop :=
  ((t.1 : ℚ) * 256 ≤ p.x ∧ p.x < ((t.1 : ℚ) + 1) * 256) ∧
  ((t.2 : ℚ) * 256 ≤ p.y ∧ p.y < ((t.2 : ℚ) + 1) * 256)

theorem mem_intRange {a b x : ℤ} : x ∈ intRange a b ↔ a ≤ x ∧ x ≤ b := by
  unfold intRange
  constructor
  · intro h
    obtain ⟨n, hn, rfl⟩ := List.mem_map.mp h
    have := List.mem_range.mp hn
    omega
  · rintro ⟨h1, h2⟩
    refine List.mem_map.mpr ⟨(x - a).toNat, List.mem_range.mpr (by omega), by omega⟩

theorem length_intRange (a b : ℤ) : (intRange a b).length = (b - a + 1).toNat := by
  simp [intRange]

theorem mem_tileIndices {tr : IntBounds} {t : ℤ × ℤ} :
    t ∈ tileIndices tr ↔
      (tr.min.1 ≤ t.1 ∧ t.1 ≤ tr.max.1) ∧ (tr.min.2 ≤ t.2 ∧ t.2 ≤ tr.max.2) := by
  unfold tileIndices
  simp only [List.mem_flatMap, List.mem_map]
  constructor
  · rintro ⟨x, hx, y, hy, rfl⟩
    exact ⟨mem_intRange.mp hx, mem_intRange.mp hy⟩
  · rintro ⟨hx, hy⟩
    exact ⟨t.1, mem_intRange.mpr hx, t.2, mem_intRange.mpr hy, rfl⟩

theorem length_flatMap_map_pair (l₁ l₂ : List ℤ) :
    (l₁.flatMap fun x => l₂.map fun y => (x, y)).length = l₁.length * l₂.length := by
  induction l₁ with
  | nil => simp
  | cons a l ih => simp [List.flatMap_cons, ih, Nat.succ_mul, Nat.add_comm]

theorem length_tileIndices (tr : IntBounds) :
    (tileIndices tr).length =
      (tr.max.1 - tr.min.1 + 1).toNat * (tr.max.2 - tr.min.2 + 1).toNat := by
  unfold tileIndices
  rw [length_flatMap_map_pair, length_intRange, length_intRange]

theorem floor_div_le_floor_div {a b : ℚ} (h : a ≤ b) :
    ⌊a / 256⌋ ≤ ⌊b / 256⌋ :=
  Int.floor_le_floor (div_le_div_of_nonneg_right h (by norm_num))

theorem tileRange_min1 (pb : Bounds) :
    (tileRangeOf pb).min.1 = min ⌊pb.min.x / 256⌋ ⌊pb.max.x / 256⌋ := rfl

theorem tileRange_min2 (pb : Bounds) :
    (tileRangeOf pb).min.2 = min ⌊pb.min.y / 256⌋ ⌊pb.max.y / 256⌋ := rfl

theorem tileRange_max1 (pb : Bounds) :
    (tileRangeOf pb).max.1 = max ⌊pb.min.x / 256⌋ ⌊pb.max.x / 256⌋ := rfl

theorem tileRange_max2 (pb : Bounds) :
    (tileRangeOf pb).max.2 = max ⌊pb.min.y / 256⌋ ⌊pb.max.y / 256⌋ := rfl

/-- Tile `t` covers pixel `p` exactly when `t` is the floor-quotient
cell of `p`. -/
theorem coversPx_iff {t : ℤ × ℤ} {p : Point} :
    coversPx t p ↔ t = tileOf p := by
  have h256 : (0 : ℚ) < 256 := by norm_num
  unfold coversPx tileOf
  rw [Prod.ext_iff]
  constructor
  · rintro ⟨⟨hx1, hx2⟩, ⟨hy1, hy2⟩⟩
    constructor
    · exact (Int.floor_eq_iff.mpr
        ⟨(le_div_iff₀ h256).mpr hx1, by rw [div_lt_iff₀ h256]; exact hx2⟩).symm
    · exact (Int.floor_eq_iff.mpr
        ⟨(le_div_iff₀ h256).mpr hy1, by rw [div_lt_iff₀ h256]; exact hy2⟩).symm
  · rintro ⟨h1, h2⟩
    have hx := Int.floor_eq_iff.mp h1.symm
    have hy := Int.floor_eq_iff.mp h2.symm
    refine ⟨⟨(le_div_iff₀ h256).mp hx.1, ?_⟩, ⟨(le_div_iff₀ h256).mp hy.1, ?_⟩⟩
    · have := (div_lt_iff₀ h256).mp hx.2
      push_cast at this ⊢
      linarith
    · have := (div_lt_iff₀ h256).mp hy.2
      push_cast at this ⊢
      linarith

/-- C1: for every pixel-bounds rectangle the fetched tile-index set is
exactly the inclusive range `floor(pixelBounds.min / tileSize)` through
`floor(pixelBounds.max / tileSize)` in both axes, this set contains the
tile of every pixel position inside the bounds, and that containing
tile is unique: any tile of the fetched set that covers the pixel is
the pixel's own floor-quotient tile. -/
theorem tile_cover_exact (pb : Bounds) (p : Point)
    (hb : pb.min.x ≤ pb.max.x ∧ pb.min.y ≤ pb.max.y)
    (hpx : pb.min.x ≤ p.x ∧ p.x ≤ pb.max.x)
    (hpy : pb.min.y ≤ p.y ∧ p.y ≤ pb.max.y) :
    (∀ t : ℤ × ℤ, t ∈ tileIndices (tileRangeOf pb) ↔
      (⌊pb.min.x / 256⌋ ≤ t.1 ∧ t.1 ≤ ⌊pb.max.x / 256⌋) ∧
      (⌊pb.min.y / 256⌋ ≤ t.2 ∧ t.2 ≤ ⌊pb.max.y / 256⌋)) ∧
    tileOf p ∈ tileIndices (tileRangeOf pb) ∧
    coversPx (tileOf p) p ∧
    (∀ t ∈ tileIndices (tileRangeOf pb), coversPx t p → t = tileOf p) := by
  have hminx : ⌊pb.min.x / 256⌋ ≤ ⌊pb.max.x / 256⌋ := floor_div_le_floor_div hb.1
  have hminy : ⌊pb.min.y / 256⌋ ≤ ⌊pb.max.y / 256⌋ := floor_div_le_floor_div hb.2
  have hmem : ∀ t : ℤ × ℤ, t ∈ tileIndices (tileRangeOf pb) ↔
      (⌊pb.min.x / 256⌋ ≤ t.1 ∧ t.1 ≤ ⌊pb.max.x / 256⌋) ∧
      (⌊pb.min.y / 256⌋ ≤ t.2 ∧ t.2 ≤ ⌊pb.max.y / 256⌋) := by
    intro t
    rw [mem_tileIndices, tileRange_min1, tileRange_min2, tileRange_max1, tileRange_max2,
      min_eq_left hminx, min_eq_left hminy, max_eq_right hminx, max_eq_right hminy]
  refine ⟨hmem, ?_, ?_, ?_⟩
  · rw [hmem]
    exact ⟨⟨floor_div_le_floor_div hpx.1, floor_div_le_floor_div hpx.2⟩,
           ⟨floor_div_le_floor_div hpy.1, floor_div_le_floor_div hpy.2⟩⟩
  · exact coversPx_iff.mpr rfl
  · intro t _ hcov
    exact coversPx_iff.mp hcov

/-- Witness for C1 at a concrete fractional pixel-bounds rectangle and a
concrete pixel position. -/
theorem tile_cover_exact_witness :
    (∀ t : ℤ × ℤ,
      t ∈ tileIndices (tileRangeOf ⟨⟨10, 20⟩, ⟨600, 700⟩⟩) ↔
      (⌊(10 : ℚ) / 256⌋ ≤ t.1 ∧ t.1 ≤ ⌊(600 : ℚ) / 256⌋) ∧
      (⌊(20 : ℚ) / 256⌋ ≤ t.2 ∧ t.2 ≤ ⌊(700 : ℚ) / 256⌋)) ∧
    tileOf ⟨300, 300⟩ ∈ tileIndices (tileRangeOf ⟨⟨10, 20⟩, ⟨600, 700⟩⟩) ∧
    coversPx (tileOf ⟨300, 300⟩) ⟨300, 300⟩ ∧
    (∀ t ∈ tileIndices (tileRangeOf ⟨⟨10, 20⟩, ⟨600, 700⟩⟩),
      coversPx t ⟨300, 300⟩ → t = tileOf ⟨300, 300⟩) :=
  tile_cover_exact ⟨⟨10, 20⟩, ⟨600, 700⟩⟩ ⟨300, 300⟩
    (by norm_num) (by norm_num) (by norm_num)

/-- A fetched tile: its grid index and its decoded image, an idealized
raster sampled on the 256×256 square of local coordinates. -/
structure Tile where
  idx : ℤ × ℤ
  img : ℚ → ℚ → ℕ

/-- A canvas: a width, a height and a colour-valued raster function.
`drawImage` paints a region of this surface. -/
@[ext]
structure Canvas where
  w : ℚ
  h : ℚ
  px : ℚ × ℚ → ℕ

/-- A blank canvas of the given size (all pixels transparent black, 0). -/
def blankCanvas (sz : Point) : Canvas :=
  ⟨sz.x, sz.y, fun _ => 0⟩

/-- Position `p` of a `w × h` canvas receives paint when tile `t` is
drawn at offset `tileIndex × 256 − pixelBounds.min`: `p` is inside the
canvas and inside the 256×256 square placed at that offset (this is the
clipping behaviour of `drawImage`). -/
abbrev covers (pb : Bounds) (w h : ℚ) (t : Tile) (p : ℚ × ℚ) : Prop :=
  0 ≤ p.1 ∧ p.1 < w ∧ 0 ≤ p.2 ∧ p.2 < h ∧
  (t.idx.1 : ℚ) * 256 - pb.min.x ≤ p.1 ∧ p.1 < (t.idx.1 : ℚ) * 256 - pb.min.x + 256 ∧
  (t.idx.2 : ℚ) * 256 - pb.min.y ≤ p.2 ∧ p.2 < (t.idx.2 : ℚ) * 256 - pb.min.y + 256

/-- Step 5 of `handleAnalyzeMapView`, one iteration:
`stitchCtx.drawImage(img, x * tileSize - pixelBounds.min.x,
y * tileSize - pixelBounds.min.y)`, clipped to the canvas. -/
def drawTile (pb : Bounds) (c : Canvas) (t : Tile) : Canvas :=
  { c with px := fun p =>
      if covers pb c.w c.h t p then
        t.img (p.1 - ((t.idx.1 : ℚ) * 256 - pb.min.x)) (p.2 - ((t.idx.2 : ℚ) * 256 - pb.min.y))
      else c.px p }

/-- Step 5 of `handleAnalyzeMapView`: `tiles.forEach(drawImage …)` onto
the blank stitch canvas sized to the pixel bounds. -/
def stitchAll (pb : Bounds) (sz : Point) (tiles : List Tile) : Canvas :=
  tiles.foldl (drawTile pb) (blankCanvas sz)

theorem drawTile_w (pb : Bounds) (c : Canvas) (t : Tile) : (drawTile pb c t).w = c.w := rfl

theorem drawTile_h (pb : Bounds) (c : Canvas) (t : Tile) : (drawTile pb c t).h = c.h := rfl

theorem foldl_drawTile_w (pb : Bounds) (tiles : List Tile) (c : Canvas) :
    (tiles.foldl (drawTile pb) c).w = c.w := by
  induction tiles generalizing c with
  | nil => rfl
  | cons t ts ih => rw [List.foldl_cons, ih, drawTile_w]

theorem foldl_drawTile_h (pb : Bounds) (tiles : List Tile) (c : Canvas) :
    (tiles.foldl (drawTile pb) c).h = c.h := by
  induction tiles generalizing c with
  | nil => rfl
  | cons t ts ih => rw [List.foldl_cons, ih, drawTile_h]

theorem interval_256_disjoint {a b : ℤ} {m q : ℚ} (hab : a ≠ b)
    (h1 : (a : ℚ) * 256 - m ≤ q) (h2 : q < (a : ℚ) * 256 - m + 256)
    (h3 : (b : ℚ) * 256 - m ≤ q) (h4 : q < (b : ℚ) * 256 - m + 256) : False := by
  rcases lt_or_gt_of_ne hab with h | h
  · have hz : (a : ℚ) + 1 ≤ (b : ℚ) := by exact_mod_cast Int.add_one_le_iff.mpr h
    nlinarith
  · have hz : (b : ℚ) + 1 ≤ (a : ℚ) := by exact_mod_cast Int.add_one_le_iff.mpr h
    nlinarith

/-- Distinct tile indices paint disjoint canvas regions. -/
theorem covers_disjoint {pb : Bounds} {w h : ℚ} {t t' : Tile} {p : ℚ × ℚ}
    (hne : t.idx ≠ t'.idx) (hc : covers pb w h t p) : ¬ covers pb w h t' p := by
  intro hc'
  obtain ⟨_, _, _, _, hx1, hx2, hy1, hy2⟩ := hc
  obtain ⟨_, _, _, _, hx1', hx2', hy1', hy2'⟩ := hc'
  by_cases hfst : t.idx.1 = t'.idx.1
  · have hsnd : t.idx.2 ≠ t'.idx.2 := fun hs => hne (Prod.ext hfst hs)
    exact interval_256_disjoint hsnd hy1 hy2 hy1' hy2'
  · exact interval_256_disjoint hfst hx1 hx2 hx1' hx2'

/-- Folding draws over tiles none of which covers `p` leaves pixel `p`
unchanged. -/
theorem foldl_px_of_not_covers {pb : Bounds} {p : ℚ × ℚ} :
    ∀ (tiles : List Tile) (c : Canvas),
      (∀ t ∈ tiles, ¬ covers pb c.w c.h t p) →
      (tiles.foldl (drawTile pb) c).px p = c.px p := by
  intro tiles
  induction tiles with
  | nil => intro c _; rfl
  | cons a ts ih =>
    intro c hnc
    rw [List.foldl_cons]
    have hw : (drawTile pb c a).w = c.w := rfl
    have hh : (drawTile pb c a).h = c.h := rfl
    rw [ih (drawTile pb c a) (by rw [hw, hh]; exact fun t ht => hnc t (List.mem_cons_of_mem a ht))]
    unfold drawTile
    simp only
    rw [if_neg (hnc a (List.mem_cons_self a ts))]

/-- If the tiles have pairwise-distinct indices and tile `t` of the list
covers `p`, the folded canvas holds `t`'s pixel at `p`. -/
theorem foldl_px_of_covers {pb : Bounds} {p : ℚ × ℚ} :
    ∀ (tiles : List Tile) (c : Canvas) (t : Tile),
      tiles.Pairwise (fun u v => u.idx ≠ v.idx) →
      t ∈ tiles → covers pb c.w c.h t p →
      (tiles.foldl (drawTile pb) c).px p =
        t.img (p.1 - ((t.idx.1 : ℚ) * 256 - pb.min.x))
              (p.2 - ((t.idx.2 : ℚ) * 256 - pb.min.y)) := by
  intro tiles
  induction tiles with
  | nil => intro c t _ hmem; exact absurd hmem (List.not_mem_nil t)
  | cons a ts ih =>
    intro c t hpw hmem hcov
    have hpw' := (List.pairwise_cons.mp hpw)
    rw [List.foldl_cons]
    rcases List.mem_cons.mp hmem with rfl | hmem'
    · have hnone : ∀ u ∈ ts, ¬ covers pb (drawTile pb c t).w (drawTile pb c t).h u p := by
        intro u hu
        rw [drawTile_w, drawTile_h]
        exact covers_disjoint (hpw'.1 u hu) hcov
      rw [foldl_px_of_not_covers ts (drawTile pb c t) hnone]
      unfold drawTile
      simp only
      rw [if_pos hcov]
    · have hca : ¬ covers pb c.w c.h a p := by
        intro hca
        exact covers_disjoint (hpw'.1 t hmem') hca hcov
      have := ih (drawTile pb c a) t hpw'.2
      rw [drawTile_w, drawTile_h] at this
      exact this hmem' hcov

/-- C4: the stitcher places each tile at offset
`tileIndex × tileSize − pixelBounds.min` (clipped to the canvas), and for
tiles with pairwise-distinct indices — as produced by the tile loops —
the stitched canvas is identical under every permutation of the drawing
order. -/
theorem stitch_deterministic (pb : Bounds) (sz : Point) (tiles tiles' : List Tile)
    (hpw : tiles.Pairwise (fun u v => u.idx ≠ v.idx))
    (hperm : tiles.Perm tiles') :
    stitchAll pb sz tiles = stitchAll pb sz tiles' ∧
    (∀ t ∈ tiles, ∀ p : ℚ × ℚ, covers pb sz.x sz.y t p →
      (stitchAll pb sz tiles).px p =
        t.img (p.1 - ((t.idx.1 : ℚ) * 256 - pb.min.x))
              (p.2 - ((t.idx.2 : ℚ) * 256 - pb.min.y))) := by
  have hpw' : tiles'.Pairwise (fun u v => u.idx ≠ v.idx) :=
    (hperm.pairwise_iff fun hxy => Ne.symm hxy).mp hpw
  have hplace : ∀ t ∈ tiles, ∀ p : ℚ × ℚ, covers pb sz.x sz.y t p →
      (stitchAll pb sz tiles).px p =
        t.img (p.1 - ((t.idx.1 : ℚ) * 256 - pb.min.x))
              (p.2 - ((t.idx.2 : ℚ) * 256 - pb.min.y)) := by
    intro t hmem p hcov
    exact foldl_px_of_covers tiles (blankCanvas sz) t hpw hmem hcov
  refine ⟨?_, hplace⟩
  ext p
  · exact (foldl_drawTile_w pb tiles _).trans (foldl_drawTile_w pb tiles' _).symm
  · exact (foldl_drawTile_h pb tiles _).trans (foldl_drawTile_h pb tiles' _).symm
  · by_cases hex : ∃ t ∈ tiles, covers pb sz.x sz.y t p
    · obtain ⟨t, hmem, hcov⟩ := hex
      exact (foldl_px_of_covers tiles (blankCanvas sz) t hpw hmem hcov).trans
        (foldl_px_of_covers tiles' (blankCanvas sz) t hpw'
          (hperm.mem_iff.mp hmem) hcov).symm
    · push_neg at hex
      exact (foldl_px_of_not_covers tiles (blankCanvas sz) hex).trans
        (foldl_px_of_not_covers tiles' (blankCanvas sz)
          fun t ht => hex t (hperm.mem_iff.mpr ht)).symm

/-- A concrete tile at grid index (0, 0) with constant image 1. -/
def tileA : Tile := ⟨(0, 0), fun _ _ => 1⟩

/-- A concrete tile at grid index (1, 0) with constant image 2. -/
def tileB : Tile := ⟨(1, 0), fun _ _ => 2⟩

/-- Witness for C4: stitching two concrete adjacent tiles in either
order yields the same canvas. -/
theorem stitch_deterministic_witness :
    stitchAll ⟨⟨0, 0⟩, ⟨512, 256⟩⟩ ⟨512, 256⟩ [tileA, tileB] =
      stitchAll ⟨⟨0, 0⟩, ⟨512, 256⟩⟩ ⟨512, 256⟩ [tileB, tileA] ∧
    (∀ t ∈ [tileA, tileB], ∀ p : ℚ × ℚ,
      covers ⟨⟨0, 0⟩, ⟨512, 256⟩⟩ (512 : ℚ) (256 : ℚ) t p →
      (stitchAll ⟨⟨0, 0⟩, ⟨512, 256⟩⟩ ⟨512, 256⟩ [tileA, tileB]).px p =
        t.img (p.1 - ((t.idx.1 : ℚ) * 256 - 0))
              (p.2 - ((t.idx.2 : ℚ) * 256 - 0))) :=
  stitch_deterministic ⟨⟨0, 0⟩, ⟨512, 256⟩⟩ ⟨512, 256⟩ [tileA, tileB] [tileB, tileA]
    (by
      refine List.Pairwise.cons ?_ (List.pairwise_singleton _ _)
      intro b hb
      rw [List.mem_singleton] at hb
      subst hb
      decide)
    (List.Perm.swap tileB tileA [])

/-- Step 6 of `handleAnalyzeMapView`: the final canvas is sized to the
map viewport (`map.getSize()`) and the stitched canvas is drawn onto it
with a scaling blit
(`drawImage(stitchCanvas, 0, 0, sw, sh, 0, 0, fw, fh)`). -/
def resample (c : Canvas) (target : Point) : Canvas :=
  ⟨target.x, target.y, fun p => c.px (p.1 * c.w / target.x, p.2 * c.h / target.y)⟩

/-- The `File` produced in step 7:
`new File([blob], "map-view.png", { type: "image/png" })`. -/
structure CapturedFile where
  data : ℕ
  name : String
  mime : String

/-- JavaScript `Promise.all` over settled outcomes: resolves with the
ordered list of values when every promise resolves, rejects as soon as
any promise rejects. -/
def promiseAll {α : Type} : List (Except String α) → Except String (List α)
  | [] => .ok []
  | .error e :: _ => .error e
  | .ok a :: rest =>
    match promiseAll rest with
    | .error e => .error e
    | .ok as => .ok (a :: as)

theorem promiseAll_error {α : Type} :
    ∀ (l : List (Except String α)), (∃ x ∈ l, ∃ e, x = .error e) →
      ∃ e, promiseAll l = .error e := by
  intro l
  induction l with
  | nil => rintro ⟨x, hx, _⟩; exact absurd hx (List.not_mem_nil x)
  | cons a rest ih =>
    rintro ⟨x, hx, e, hxe⟩
    rcases List.mem_cons.mp hx with rfl | hmem
    · subst hxe
      exact ⟨e, rfl⟩
    · cases a with
      | error e' => exact ⟨e', rfl⟩
      | ok v =>
        obtain ⟨e'', he''⟩ := ih ⟨x, hmem, e, hxe⟩
        refine ⟨e'', ?_⟩
        unfold promiseAll
        rw [he'']

theorem promiseAll_ok {α : Type} :
    ∀ (l : List (Except String α)), (∀ x ∈ l, ∃ a, x = .ok a) →
      ∃ vs, promiseAll l = .ok vs := by
  intro l
  induction l with
  | nil => intro _; exact ⟨[], rfl⟩
  | cons a rest ih =>
    intro h
    obtain ⟨v, hv⟩ := h a (List.mem_cons_self a rest)
    subst hv
    obtain ⟨vs, hvs⟩ := ih fun x hx => h x (List.mem_cons_of_mem _ hx)
    refine ⟨v :: vs, ?_⟩
    unfold promiseAll
    rw [hvs]

/-- The browser-facing inputs of one run of `handleAnalyzeMapView`:
the two projected corner points of the analysis bounds
(`map.project(bounds.getNorthWest())` / `map.project(bounds.getSouthEast())`),
the viewport size (`map.getSize()`), whether `getContext('2d')` succeeds
on the two canvases, the outcome of each tile request, and the
`canvas.toBlob` serializer. -/
structure CaptureEnv where
  pNW : Point
  pSE : Point
  finalSize : Point
  stitchCtxOk : Bool
  finalCtxOk : Bool
  fetch : ℤ × ℤ → Except String (ℚ → ℚ → ℕ)
  toBlob : Canvas → Option ℕ

/-- Observable outcome of one capture: the tile indices requested from
the network, the stitched canvas if stitching ran, the final resampled
canvas if it was produced, and the overall result — an image file handed
to `onAnalyzeFromMap`, or the caught exception's message. -/
structure CaptureResult where
  requests : List (ℤ × ℤ)
  stitched : Option Canvas
  final : Option Canvas
  result : Except String CapturedFile

/-- Step 1 of `handleAnalyzeMapView`: the `pixelBounds` const,
`L.bounds(project(getNorthWest()), project(getSouthEast()))`. -/
def pixelBoundsOf (env : CaptureEnv) : Bounds :=
  lbounds env.pNW env.pSE

/-- The `pixelBoundsSize` const: `pixelBounds.getSize()`. -/
def pixelBoundsSizeOf (env : CaptureEnv) : Point :=
  (pixelBoundsOf env).getSize

/-- The tile indices of the `tilePromises` loop: one network request per
index of the covering range. -/
def tileRequestsOf (env : CaptureEnv) : List (ℤ × ℤ) :=
  tileIndices (tileRangeOf (pixelBoundsOf env))

/-- The `const tiles = await Promise.all(tilePromises)` step. -/
def fetchedTilesOf (env : CaptureEnv) : Except String (List Tile) :=
  promiseAll ((tileRequestsOf env).map fun i => (env.fetch i).map fun im => Tile.mk i im)

/-- The `stitchCanvas` after step 5, for a given resolved tile list. -/
def stitchedOf (env : CaptureEnv) (tiles : List Tile) : Canvas :=
  stitchAll (pixelBoundsOf env) (pixelBoundsSizeOf env) tiles

/-- The `finalCanvas` after step 6. -/
def finalOf (env : CaptureEnv) (tiles : List Tile) : Canvas :=
  resample (stitchedOf env tiles) env.finalSize

/-- The body of `handleAnalyzeMapView` (MapComponent.tsx lines 202-284):
project the analysis bounds to pixel bounds, reject degenerate bounds,
create the stitch canvas, fetch every tile of the covering range with
`Promise.all`, draw the tiles, resample onto the viewport-sized final
canvas, serialize to a PNG blob and package it as `map-view.png`. -/
def capture (env : CaptureEnv) : CaptureResult :=
  if (pixelBoundsSizeOf env).x = 0 ∨ (pixelBoundsSizeOf env).y = 0 then
    ⟨[], none, none, .error "Analysis bounds have zero area."⟩
  else if env.stitchCtxOk = false then
    ⟨[], none, none, .error "Could not get canvas context"⟩
  else
    match fetchedTilesOf env with
    | .error e => ⟨tileRequestsOf env, none, none, .error e⟩
    | .ok tiles =>
      if env.finalCtxOk = false then
        ⟨tileRequestsOf env, some (stitchedOf env tiles), none,
          .error "Could not get final canvas context"⟩
      else
        match env.toBlob (finalOf env tiles) with
        | some b =>
          ⟨tileRequestsOf env, some (stitchedOf env tiles), some (finalOf env tiles),
            .ok ⟨b, "map-view.png", "image/png"⟩⟩
        | none =>
          ⟨tileRequestsOf env, some (stitchedOf env tiles), some (finalOf env tiles),
            .error "Canvas to Blob conversion failed."⟩

/-- In every branch past the degenerate-bounds and context guards, the
requested tile set is the full covering range; before those guards pass
it is empty. -/
theorem capture_requests (env : CaptureEnv) :
    (capture env).requests =
      if ((pixelBoundsSizeOf env).x = 0 ∨ (pixelBoundsSizeOf env).y = 0) ∨
          env.stitchCtxOk = false then []
      else tileRequestsOf env := by
  unfold capture
  by_cases h1 : (pixelBoundsSizeOf env).x = 0 ∨ (pixelBoundsSizeOf env).y = 0
  · rw [if_pos h1, if_pos (Or.inl h1)]
  · rw [if_neg h1]
    by_cases h2 : env.stitchCtxOk = false
    · rw [if_pos h2, if_pos (Or.inr h2)]
    · rw [if_neg h2, if_neg (by tauto)]
      split
      · rfl
      · by_cases h3 : env.finalCtxOk = false
        · rw [if_pos h3]
        · rw [if_neg h3]
          split <;> rfl

theorem stitchedOf_w (env : CaptureEnv) (tiles : List Tile) :
    (stitchedOf env tiles).w = (pixelBoundsSizeOf env).x :=
  foldl_drawTile_w _ _ _

theorem stitchedOf_h (env : CaptureEnv) (tiles : List Tile) :
    (stitchedOf env tiles).h = (pixelBoundsSizeOf env).y :=
  foldl_drawTile_h _ _ _

theorem finalOf_w (env : CaptureEnv) (tiles : List Tile) :
    (finalOf env tiles).w = env.finalSize.x := rfl

theorem finalOf_h (env : CaptureEnv) (tiles : List Tile) :
    (finalOf env tiles).h = env.finalSize.y := rfl

/-- Exhaustive case analysis of one capture run: degenerate bounds,
missing stitch context, a rejected tile fetch, missing final context,
successful encode, or failed encode. -/
theorem capture_cases (env : CaptureEnv) :
    (((pixelBoundsSizeOf env).x = 0 ∨ (pixelBoundsSizeOf env).y = 0) ∧
      capture env = ⟨[], none, none, .error "Analysis bounds have zero area."⟩) ∨
    (env.stitchCtxOk = false ∧
      capture env = ⟨[], none, none, .error "Could not get canvas context"⟩) ∨
    (∃ e, fetchedTilesOf env = .error e ∧
      capture env = ⟨tileRequestsOf env, none, none, .error e⟩) ∨
    (∃ tiles, fetchedTilesOf env = .ok tiles ∧ env.finalCtxOk = false ∧
      capture env = ⟨tileRequestsOf env, some (stitchedOf env tiles), none,
        .error "Could not get final canvas context"⟩) ∨
    (∃ tiles b, fetchedTilesOf env = .ok tiles ∧
      env.toBlob (finalOf env tiles) = some b ∧
      capture env = ⟨tileRequestsOf env, some (stitchedOf env tiles), some (finalOf env tiles),
        .ok ⟨b, "map-view.png", "image/png"⟩⟩) ∨
    (∃ tiles, fetchedTilesOf env = .ok tiles ∧
      env.toBlob (finalOf env tiles) = none ∧
      capture env = ⟨tileRequestsOf env, some (stitchedOf env tiles), some (finalOf env tiles),
        .error "Canvas to Blob conversion failed."⟩) := by
  by_cases h1 : (pixelBoundsSizeOf env).x = 0 ∨ (pixelBoundsSizeOf env).y = 0
  · exact Or.inl ⟨h1, by unfold capture; rw [if_pos h1]⟩
  refine Or.inr ?_
  by_cases h2 : env.stitchCtxOk = false
  · exact Or.inl ⟨h2, by unfold capture; rw [if_neg h1, if_pos h2]⟩
  refine Or.inr ?_
  rcases hfe : fetchedTilesOf env with e | tiles
  · exact Or.inl ⟨e, rfl, by unfold capture; rw [if_neg h1, if_neg h2]; simp only [hfe]⟩
  refine Or.inr ?_
  by_cases h3 : env.finalCtxOk = false
  · exact Or.inl ⟨tiles, rfl, h3, by
      unfold capture; rw [if_neg h1, if_neg h2]; simp only [hfe, h3, if_true]⟩
  refine Or.inr ?_
  rcases hb : env.toBlob (finalOf env tiles) with _ | b
  · exact Or.inr ⟨tiles, rfl, hb, by
      unfold capture; rw [if_neg h1, if_neg h2]
      simp only [hfe, if_neg h3, hb]⟩
  · exact Or.inl ⟨tiles, b, rfl, hb, by
      unfold capture; rw [if_neg h1, if_neg h2]
      simp only [hfe, if_neg h3, hb]⟩

/-- Length of the request list in terms of the pixel-bounds corners. -/
theorem tileRequests_length (env : CaptureEnv) :
    (tileRequestsOf env).length =
      (max ⌊(pixelBoundsOf env).min.x / 256⌋ ⌊(pixelBoundsOf env).max.x / 256⌋ -
        min ⌊(pixelBoundsOf env).min.x / 256⌋ ⌊(pixelBoundsOf env).max.x / 256⌋ + 1).toNat *
      (max ⌊(pixelBoundsOf env).min.y / 256⌋ ⌊(pixelBoundsOf env).max.y / 256⌋ -
        min ⌊(pixelBoundsOf env).min.y / 256⌋ ⌊(pixelBoundsOf env).max.y / 256⌋ + 1).toNat := by
  unfold tileRequestsOf
  rw [length_tileIndices, tileRange_min1, tileRange_min2, tileRange_max1, tileRange_max2]

/-- C2: if any tile in the requested set fails to fetch, the capture
aborts with the rejected promise's error: no stitched canvas is
produced — no successful tile is ever drawn — and no file reaches the
dispatcher. -/
theorem capture_all_or_nothing (env : CaptureEnv) (i : ℤ × ℤ) (e : String)
    (hi : i ∈ (capture env).requests) (he : env.fetch i = .error e) :
    (capture env).stitched = none ∧
    (∃ e', (capture env).result = .error e') ∧
    ∀ f, (capture env).result ≠ .ok f := by
  have hreq := capture_requests env
  by_cases hg : ((pixelBoundsSizeOf env).x = 0 ∨ (pixelBoundsSizeOf env).y = 0) ∨
      env.stitchCtxOk = false
  · rw [hreq, if_pos hg] at hi
    exact absurd hi (List.not_mem_nil i)
  rw [hreq, if_neg hg] at hi
  have hmem : (Except.error e : Except String Tile) ∈
      (tileRequestsOf env).map fun j => (env.fetch j).map fun im => Tile.mk j im := by
    refine List.mem_map.mpr ⟨i, hi, ?_⟩
    rw [he]
    rfl
  obtain ⟨e', he'⟩ := promiseAll_error _ ⟨_, hmem, e, rfl⟩
  have hfe : fetchedTilesOf env = .error e' := he'
  rcases capture_cases env with ⟨hc, _⟩ | ⟨hc, _⟩ | ⟨e'', _, hcap⟩ |
    ⟨tiles, hfe'', _, _⟩ | ⟨tiles, b, hfe'', _, _⟩ | ⟨tiles, hfe'', _, _⟩
  · exact absurd (Or.inl hc) hg
  · exact absurd (Or.inr hc) hg
  · rw [hcap]
    exact ⟨rfl, ⟨e'', rfl⟩, fun f hf => Except.noConfusion hf⟩
  · rw [hfe] at hfe''
    exact Except.noConfusion hfe''
  · rw [hfe] at hfe''
    exact Except.noConfusion hfe''
  · rw [hfe] at hfe''
    exact Except.noConfusion hfe''

/-- A one-tile capture environment whose single tile request fails. -/
def envFetchFail : CaptureEnv :=
  ⟨⟨0, 0⟩, ⟨1, 1⟩, ⟨800, 600⟩, true, true, fun _ => .error "tile failed", fun _ => some 0⟩

theorem envFetchFail_requests : (capture envFetchFail).requests = [(0, 0)] := by
  rw [capture_requests]
  have hx : (pixelBoundsSizeOf envFetchFail).x = 1 := by
    norm_num [pixelBoundsSizeOf, pixelBoundsOf, lbounds, Bounds.getSize, envFetchFail]
  have hy : (pixelBoundsSizeOf envFetchFail).y = 1 := by
    norm_num [pixelBoundsSizeOf, pixelBoundsOf, lbounds, Bounds.getSize, envFetchFail]
  rw [if_neg (by rw [hx, hy]; norm_num [envFetchFail])]
  have h0 : (⌊(0 : ℚ) / 256⌋ : ℤ) = 0 := by norm_num
  have h1 : (⌊(1 : ℚ) / 256⌋ : ℤ) = 0 := by norm_num
  have hminx : (pixelBoundsOf envFetchFail).min.x = 0 := by
    norm_num [pixelBoundsOf, lbounds, envFetchFail]
  have hminy : (pixelBoundsOf envFetchFail).min.y = 0 := by
    norm_num [pixelBoundsOf, lbounds, envFetchFail]
  have hmaxx : (pixelBoundsOf envFetchFail).max.x = 1 := by
    norm_num [pixelBoundsOf, lbounds, envFetchFail]
  have hmaxy : (pixelBoundsOf envFetchFail).max.y = 1 := by
    norm_num [pixelBoundsOf, lbounds, envFetchFail]
  have hrange : tileRangeOf (pixelBoundsOf envFetchFail) = ⟨(0, 0), (0, 0)⟩ := by
    have g1 := tileRange_min1 (pixelBoundsOf envFetchFail)
    have g2 := tileRange_min2 (pixelBoundsOf envFetchFail)
    have g3 := tileRange_max1 (pixelBoundsOf envFetchFail)
    have g4 := tileRange_max2 (pixelBoundsOf envFetchFail)
    rw [hminx, hmaxx, h0, h1] at g1 g3
    rw [hminy, hmaxy, h0, h1] at g2 g4
    rcases htr : tileRangeOf (pixelBoundsOf envFetchFail) with ⟨mn, mx⟩
    rw [htr] at g1 g2 g3 g4
    simp only [min_self, max_self] at g1 g2 g3 g4
    rw [show mn = ((0 : ℤ), (0 : ℤ)) from Prod.ext g1 g2,
      show mx = ((0 : ℤ), (0 : ℤ)) from Prod.ext g3 g4]
  show tileRequestsOf envFetchFail = [(0, 0)]
  unfold tileRequestsOf
  rw [hrange]
  rfl

/-- Witness for C2: in a concrete one-tile environment whose fetch
rejects, the capture yields no stitched canvas and an error result. -/
theorem capture_all_or_nothing_witness :
    (capture envFetchFail).stitched = none ∧
    (∃ e', (capture envFetchFail).result = .error e') ∧
    ∀ f, (capture envFetchFail).result ≠ .ok f :=
  capture_all_or_nothing envFetchFail (0, 0) "tile failed"
    (by rw [envFetchFail_requests]; exact List.mem_singleton.mpr rfl) rfl

/-- C3 (amended): when the projected pixel width or height is exactly
zero — in particular for equal corner points — the capture aborts before
any tile fetch: no requests, no stitched canvas, and the
degenerate-bounds error. -/
theorem capture_degenerate (env : CaptureEnv)
    (h : (pixelBoundsSizeOf env).x = 0 ∨ (pixelBoundsSizeOf env).y = 0) :
    (capture env).requests = [] ∧ (capture env).stitched = none ∧
    (capture env).result = .error "Analysis bounds have zero area." := by
  unfold capture
  rw [if_pos h]
  exact ⟨rfl, rfl, rfl⟩

/-- A capture environment whose analysis bounds project to two equal
corner points. -/
def envEqualCorners : CaptureEnv :=
  ⟨⟨5, 7⟩, ⟨5, 7⟩, ⟨800, 600⟩, true, true, fun _ => .ok fun _ _ => 0, fun _ => some 0⟩

/-- Witness for C3 (amended): equal projected corners give a capture
with zero network requests and the degenerate-bounds error. -/
theorem capture_degenerate_witness :
    (capture envEqualCorners).requests = [] ∧
    (capture envEqualCorners).stitched = none ∧
    (capture envEqualCorners).result = .error "Analysis bounds have zero area." :=
  capture_degenerate envEqualCorners
    (Or.inl (by
      norm_num [pixelBoundsSizeOf, pixelBoundsOf, lbounds, Bounds.getSize, envEqualCorners]))

/-- A capture environment whose projected pixel width is 2/5 of a pixel:
it rounds to zero, yet is not exactly zero. -/
def envRoundZero : CaptureEnv :=
  ⟨⟨0, 0⟩, ⟨2/5, 100⟩, ⟨800, 600⟩, true, true, fun _ => .ok fun _ _ => 0, fun _ => some 0⟩

/-- Counterexample to C3 as stated: a pixel width that rounds to 0 but
is not exactly 0 does not abort the capture — one tile request is still
issued. The guard in the code compares the width to zero exactly. -/
theorem capture_round_zero_still_fetches :
    round (pixelBoundsSizeOf envRoundZero).x = 0 ∧
    (capture envRoundZero).requests = [(0, 0)] ∧
    (capture envRoundZero).requests ≠ [] := by
  have hx : (pixelBoundsSizeOf envRoundZero).x = 2/5 := by
    norm_num [pixelBoundsSizeOf, pixelBoundsOf, lbounds, Bounds.getSize, envRoundZero]
  have hy : (pixelBoundsSizeOf envRoundZero).y = 100 := by
    norm_num [pixelBoundsSizeOf, pixelBoundsOf, lbounds, Bounds.getSize, envRoundZero]
  have hreq : (capture envRoundZero).requests = [(0, 0)] := by
    rw [capture_requests]
    rw [if_neg (by rw [hx, hy]; norm_num [envRoundZero])]
    have h0 : (⌊(0 : ℚ) / 256⌋ : ℤ) = 0 := by norm_num
    have h1 : (⌊(2/5 : ℚ) / 256⌋ : ℤ) = 0 := by norm_num
    have h2 : (⌊(100 : ℚ) / 256⌋ : ℤ) = 0 := by norm_num
    have hminx : (pixelBoundsOf envRoundZero).min.x = 0 := by
      norm_num [pixelBoundsOf, lbounds, envRoundZero]
    have hminy : (pixelBoundsOf envRoundZero).min.y = 0 := by
      norm_num [pixelBoundsOf, lbounds, envRoundZero]
    have hmaxx : (pixelBoundsOf envRoundZero).max.x = 2/5 := by
      norm_num [pixelBoundsOf, lbounds, envRoundZero]
    have hmaxy : (pixelBoundsOf envRoundZero).max.y = 100 := by
      norm_num [pixelBoundsOf, lbounds, envRoundZero]
    have hrange : tileRangeOf (pixelBoundsOf envRoundZero) = ⟨(0, 0), (0, 0)⟩ := by
      have g1 := tileRange_min1 (pixelBoundsOf envRoundZero)
      have g2 := tileRange_min2 (pixelBoundsOf envRoundZero)
      have g3 := tileRange_max1 (pixelBoundsOf envRoundZero)
      have g4 := tileRange_max2 (pixelBoundsOf envRoundZero)
      rw [hminx, hmaxx, h0, h1] at g1 g3
      rw [hminy, hmaxy, h0, h2] at g2 g4
      rcases htr : tileRangeOf (pixelBoundsOf envRoundZero) with ⟨mn, mx⟩
      rw [htr] at g1 g2 g3 g4
      simp only [min_self, max_self] at g1 g2 g3 g4
      rw [show mn = ((0 : ℤ), (0 : ℤ)) from Prod.ext g1 g2,
        show mx = ((0 : ℤ), (0 : ℤ)) from Prod.ext g3 g4]
    show tileRequestsOf envRoundZero = [(0, 0)]
    unfold tileRequestsOf
    rw [hrange]
    rfl
  refine ⟨?_, hreq, ?_⟩
  · rw [hx]
    norm_num [round_eq]
  · rw [hreq]
    simp

theorem floor_add_512_div_256 (a : ℚ) : ⌊(a + 512) / 256⌋ = ⌊a / 256⌋ + 2 := by
  rw [show (a + 512) / 256 = a / 256 + ((2 : ℤ) : ℚ) by push_cast; ring, Int.floor_add_int]

/-- C6 (amended): a capture whose pixel bounds measure 512×512 at tile
size 256 requests exactly 9 tiles (a 3×3 grid, whatever the fractional
offset of the bounds), its stitch canvas measures 512×512, and its final
canvas is sized to the viewport. -/
theorem capture_512_grid (env : CaptureEnv)
    (hx : env.pSE.x = env.pNW.x + 512) (hy : env.pSE.y = env.pNW.y + 512)
    (hctx : env.stitchCtxOk = true) :
    (capture env).requests.length = 9 ∧
    (∀ c, (capture env).stitched = some c → c.w = 512 ∧ c.h = 512) ∧
    (∀ c, (capture env).final = some c →
      c.w = env.finalSize.x ∧ c.h = env.finalSize.y) := by
  have hminx : (pixelBoundsOf env).min.x = env.pNW.x := by
    show min env.pNW.x env.pSE.x = env.pNW.x
    rw [hx]
    exact min_eq_left (by linarith)
  have hmaxx : (pixelBoundsOf env).max.x = env.pNW.x + 512 := by
    show max env.pNW.x env.pSE.x = env.pNW.x + 512
    rw [hx]
    exact max_eq_right (by linarith)
  have hminy : (pixelBoundsOf env).min.y = env.pNW.y := by
    show min env.pNW.y env.pSE.y = env.pNW.y
    rw [hy]
    exact min_eq_left (by linarith)
  have hmaxy : (pixelBoundsOf env).max.y = env.pNW.y + 512 := by
    show max env.pNW.y env.pSE.y = env.pNW.y + 512
    rw [hy]
    exact max_eq_right (by linarith)
  have hsx : (pixelBoundsSizeOf env).x = 512 := by
    show (pixelBoundsOf env).max.x - (pixelBoundsOf env).min.x = 512
    rw [hminx, hmaxx]
    ring
  have hsy : (pixelBoundsSizeOf env).y = 512 := by
    show (pixelBoundsOf env).max.y - (pixelBoundsOf env).min.y = 512
    rw [hminy, hmaxy]
    ring
  refine ⟨?_, ?_, ?_⟩
  · rw [capture_requests, if_neg (by rw [hsx, hsy, hctx]; norm_num)]
    rw [tileRequests_length, hminx, hmaxx, hminy, hmaxy,
      floor_add_512_div_256, floor_add_512_div_256,
      min_eq_left (by omega), max_eq_right (by omega),
      min_eq_left (by omega), max_eq_right (by omega)]
    have h3 : ∀ a : ℤ, (a + 2 - a + 1).toNat = 3 := fun a => by omega
    rw [h3, h3]
  · intro c hc
    rcases capture_cases env with ⟨_, hcap⟩ | ⟨_, hcap⟩ | ⟨e, _, hcap⟩ |
      ⟨tiles, _, _, hcap⟩ | ⟨tiles, b, _, _, hcap⟩ | ⟨tiles, _, _, hcap⟩ <;>
      rw [hcap] at hc
    · exact Option.noConfusion hc
    · exact Option.noConfusion hc
    · exact Option.noConfusion hc
    · rw [← Option.some.inj hc, stitchedOf_w, stitchedOf_h, hsx, hsy]
      exact ⟨rfl, rfl⟩
    · rw [← Option.some.inj hc, stitchedOf_w, stitchedOf_h, hsx, hsy]
      exact ⟨rfl, rfl⟩
    · rw [← Option.some.inj hc, stitchedOf_w, stitchedOf_h, hsx, hsy]
      exact ⟨rfl, rfl⟩
  · intro c hc
    rcases capture_cases env with ⟨_, hcap⟩ | ⟨_, hcap⟩ | ⟨e, _, hcap⟩ |
      ⟨tiles, _, _, hcap⟩ | ⟨tiles, b, _, _, hcap⟩ | ⟨tiles, _, _, hcap⟩ <;>
      rw [hcap] at hc
    · exact Option.noConfusion hc
    · exact Option.noConfusion hc
    · exact Option.noConfusion hc
    · exact Option.noConfusion hc
    · rw [← Option.some.inj hc]
      exact ⟨finalOf_w env tiles, finalOf_h env tiles⟩
    · rw [← Option.some.inj hc]
      exact ⟨finalOf_w env tiles, finalOf_h env tiles⟩

/-- A capture environment with a 512×512-pixel analysis region and an
800×600 viewport. -/
def env512 : CaptureEnv :=
  ⟨⟨0, 0⟩, ⟨512, 512⟩, ⟨800, 600⟩, true, true, fun _ => .ok fun _ _ => 0, fun _ => some 0⟩

/-- Witness for C6 (amended) at the concrete 512×512 environment. -/
theorem capture_512_grid_witness :
    (capture env512).requests.length = 9 ∧
    (∀ c, (capture env512).stitched = some c → c.w = 512 ∧ c.h = 512) ∧
    (∀ c, (capture env512).final = some c →
      c.w = env512.finalSize.x ∧ c.h = env512.finalSize.y) :=
  capture_512_grid env512 (by norm_num [env512]) (by norm_num [env512]) rfl

/-- Counterexample to C6 as stated: the 512×512-pixel capture requests
9 tiles — a 3×3 grid — not 4. The inclusive floor range over a span of
exactly two tile widths always covers three tile columns and rows. -/
theorem capture_512_not_four_tiles :
    (capture env512).requests.length = 9 ∧ (capture env512).requests.length ≠ 4 := by
  have hsx : (pixelBoundsSizeOf env512).x = 512 := by
    norm_num [pixelBoundsSizeOf, pixelBoundsOf, lbounds, Bounds.getSize, env512]
  have hsy : (pixelBoundsSizeOf env512).y = 512 := by
    norm_num [pixelBoundsSizeOf, pixelBoundsOf, lbounds, Bounds.getSize, env512]
  have h0 : (⌊(0 : ℚ) / 256⌋ : ℤ) = 0 := by norm_num
  have h512 : (⌊(512 : ℚ) / 256⌋ : ℤ) = 2 := by norm_num
  have hlen : (capture env512).requests.length = 9 := by
    rw [capture_requests, if_neg (by rw [hsx, hsy]; norm_num [env512])]
    have hminx : (pixelBoundsOf env512).min.x = 0 := by
      norm_num [pixelBoundsOf, lbounds, env512]
    have hminy : (pixelBoundsOf env512).min.y = 0 := by
      norm_num [pixelBoundsOf, lbounds, env512]
    have hmaxx : (pixelBoundsOf env512).max.x = 512 := by
      norm_num [pixelBoundsOf, lbounds, env512]
    have hmaxy : (pixelBoundsOf env512).max.y = 512 := by
      norm_num [pixelBoundsOf, lbounds, env512]
    rw [tileRequests_length, hminx, hmaxx, hminy, hmaxy, h0, h512]
    decide
  rw [hlen]
  norm_num

/-- C7: every file a capture dispatches is the encoder's blob packaged
under the name `map-view.png` with MIME type `image/png`; and when blob
serialization of the final canvas yields no data, the capture fails with
the encoding error and dispatches nothing. -/
theorem capture_encoding (env : CaptureEnv) :
    (∀ f, (capture env).result = .ok f →
      f.name = "map-view.png" ∧ f.mime = "image/png" ∧
      ∃ c, (capture env).final = some c ∧ env.toBlob c = some f.data) ∧
    (∀ c, (capture env).final = some c → env.toBlob c = none →
      (capture env).result = .error "Canvas to Blob conversion failed." ∧
      ∀ f, (capture env).result ≠ .ok f) := by
  rcases capture_cases env with ⟨_, hcap⟩ | ⟨_, hcap⟩ | ⟨e, _, hcap⟩ |
    ⟨tiles, _, _, hcap⟩ | ⟨tiles, b, _, hb, hcap⟩ | ⟨tiles, _, hb, hcap⟩ <;> rw [hcap]
  · exact ⟨fun f hf => Except.noConfusion hf, fun c hc => Option.noConfusion hc⟩
  · exact ⟨fun f hf => Except.noConfusion hf, fun c hc => Option.noConfusion hc⟩
  · exact ⟨fun f hf => Except.noConfusion hf, fun c hc => Option.noConfusion hc⟩
  · exact ⟨fun f hf => Except.noConfusion hf, fun c hc => Option.noConfusion hc⟩
  · refine ⟨fun f hf => ?_, fun c hc hn => ?_⟩
    · rw [← Except.ok.inj hf]
      exact ⟨rfl, rfl, finalOf env tiles, rfl, hb⟩
    · rw [← Option.some.inj hc] at hn
      rw [hb] at hn
      exact Option.noConfusion hn
  · refine ⟨fun f hf => Except.noConfusion hf, fun c hc hn => ?_⟩
    exact ⟨rfl, fun f hf => Except.noConfusion hf⟩

/-- A one-tile capture environment in which every stage succeeds and the
encoder returns blob 42. -/
def envEncodeOk : CaptureEnv :=
  ⟨⟨0, 0⟩, ⟨1, 1⟩, ⟨800, 600⟩, true, true, fun _ => .ok fun _ _ => 0, fun _ => some 42⟩

/-- A one-tile capture environment in which `canvas.toBlob` yields no
data. -/
def envEncodeFail : CaptureEnv :=
  ⟨⟨0, 0⟩, ⟨1, 1⟩, ⟨800, 600⟩, true, true, fun _ => .ok fun _ _ => 0, fun _ => none⟩

theorem unitTileRange (p q r : ℚ) (hp : p = 0) (hq : q = 1) (hr : r = 1)
    (pbx : Bounds) (hpb : pbx = ⟨⟨p, p⟩, ⟨q, r⟩⟩) :
    tileRangeOf pbx = ⟨(0, 0), (0, 0)⟩ := by
  subst hp hq hr hpb
  have h0 : (⌊(0 : ℚ) / 256⌋ : ℤ) = 0 := by norm_num
  have h1 : (⌊(1 : ℚ) / 256⌋ : ℤ) = 0 := by norm_num
  have g1 := tileRange_min1 ⟨⟨0, 0⟩, ⟨1, 1⟩⟩
  have g2 := tileRange_min2 ⟨⟨0, 0⟩, ⟨1, 1⟩⟩
  have g3 := tileRange_max1 ⟨⟨0, 0⟩, ⟨1, 1⟩⟩
  have g4 := tileRange_max2 ⟨⟨0, 0⟩, ⟨1, 1⟩⟩
  simp only at g1 g2 g3 g4
  rw [h0, h1, min_self] at g1 g2
  rw [h0, h1, max_self] at g3 g4
  rcases htr : tileRangeOf ⟨⟨0, 0⟩, ⟨1, 1⟩⟩ with ⟨mn, mx⟩
  rw [htr] at g1 g2 g3 g4
  rw [show mn = ((0 : ℤ), (0 : ℤ)) from Prod.ext g1 g2,
    show mx = ((0 : ℤ), (0 : ℤ)) from Prod.ext g3 g4]

theorem envEncodeOk_pixelBounds : pixelBoundsOf envEncodeOk = ⟨⟨0, 0⟩, ⟨1, 1⟩⟩ := by
  norm_num [pixelBoundsOf, lbounds, envEncodeOk]

theorem envEncodeFail_pixelBounds : pixelBoundsOf envEncodeFail = ⟨⟨0, 0⟩, ⟨1, 1⟩⟩ := by
  norm_num [pixelBoundsOf, lbounds, envEncodeFail]

theorem envEncodeOk_fetched :
    fetchedTilesOf envEncodeOk = .ok [⟨(0, 0), fun _ _ => 0⟩] := by
  unfold fetchedTilesOf tileRequestsOf
  rw [envEncodeOk_pixelBounds, unitTileRange 0 1 1 rfl rfl rfl _ rfl]
  rfl

theorem envEncodeFail_fetched :
    fetchedTilesOf envEncodeFail = .ok [⟨(0, 0), fun _ _ => 0⟩] := by
  unfold fetchedTilesOf tileRequestsOf
  rw [envEncodeFail_pixelBounds, unitTileRange 0 1 1 rfl rfl rfl _ rfl]
  rfl

theorem envEncodeOk_result :
    (capture envEncodeOk).result = .ok ⟨42, "map-view.png", "image/png"⟩ := by
  rcases capture_cases envEncodeOk with ⟨hg, _⟩ | ⟨hg, _⟩ | ⟨e, hfe, _⟩ |
    ⟨tiles, _, hg, _⟩ | ⟨tiles, b, _, hb, hcap⟩ | ⟨tiles, _, hb, _⟩
  · rw [show (pixelBoundsSizeOf envEncodeOk).x = 1 by
        rw [show pixelBoundsSizeOf envEncodeOk = (pixelBoundsOf envEncodeOk).getSize from rfl,
          envEncodeOk_pixelBounds]
        norm_num [Bounds.getSize],
      show (pixelBoundsSizeOf envEncodeOk).y = 1 by
        rw [show pixelBoundsSizeOf envEncodeOk = (pixelBoundsOf envEncodeOk).getSize from rfl,
          envEncodeOk_pixelBounds]
        norm_num [Bounds.getSize]] at hg
    norm_num at hg
  · exact absurd hg (by norm_num [envEncodeOk])
  · rw [envEncodeOk_fetched] at hfe
    exact Except.noConfusion hfe
  · exact absurd hg (by norm_num [envEncodeOk])
  · rw [hcap]
    have : b = 42 := Option.some.inj hb.symm
    rw [this]
  · exact Option.noConfusion hb

theorem envEncodeFail_final :
    (capture envEncodeFail).final = some (finalOf envEncodeFail [⟨(0, 0), fun _ _ => 0⟩]) ∧
    envEncodeFail.toBlob (finalOf envEncodeFail [⟨(0, 0), fun _ _ => 0⟩]) = none := by
  rcases capture_cases envEncodeFail with ⟨hg, _⟩ | ⟨hg, _⟩ | ⟨e, hfe, _⟩ |
    ⟨tiles, _, hg, _⟩ | ⟨tiles, b, _, hb, _⟩ | ⟨tiles, hfe, _, hcap⟩
  · rw [show (pixelBoundsSizeOf envEncodeFail).x = 1 by
        rw [show pixelBoundsSizeOf envEncodeFail = (pixelBoundsOf envEncodeFail).getSize from rfl,
          envEncodeFail_pixelBounds]
        norm_num [Bounds.getSize],
      show (pixelBoundsSizeOf envEncodeFail).y = 1 by
        rw [show pixelBoundsSizeOf envEncodeFail = (pixelBoundsOf envEncodeFail).getSize from rfl,
          envEncodeFail_pixelBounds]
        norm_num [Bounds.getSize]] at hg
    norm_num at hg
  · exact absurd hg (by norm_num [envEncodeFail])
  · rw [envEncodeFail_fetched] at hfe
    exact Except.noConfusion hfe
  · exact absurd hg (by norm_num [envEncodeFail])
  · exact Option.noConfusion hb
  · rw [hcap]
    have htiles : tiles = [⟨(0, 0), fun _ _ => 0⟩] := by
      rw [envEncodeFail_fetched] at hfe
      exact (Except.ok.inj hfe).symm
    rw [htiles]
    exact ⟨rfl, rfl⟩

/-- Witness for C7: a concrete all-stages-succeed capture dispatches the
blob as `map-view.png` of type `image/png`, and a concrete capture whose
serializer returns no data fails with the encoding error. -/
theorem capture_encoding_witness :
    ((⟨42, "map-view.png", "image/png"⟩ : CapturedFile).name = "map-view.png" ∧
      (⟨42, "map-view.png", "image/png"⟩ : CapturedFile).mime = "image/png" ∧
      ∃ c, (capture envEncodeOk).final = some c ∧
        envEncodeOk.toBlob c =
          some (⟨42, "map-view.png", "image/png"⟩ : CapturedFile).data) ∧
    ((capture envEncodeFail).result = .error "Canvas to Blob conversion failed." ∧
      ∀ f, (capture envEncodeFail).result ≠ .ok f) :=
  ⟨(capture_encoding envEncodeOk).1 ⟨42, "map-view.png", "image/png"⟩ envEncodeOk_result,
   (capture_encoding envEncodeFail).2 (finalOf envEncodeFail [⟨(0, 0), fun _ _ => 0⟩])
     envEncodeFail_final.1 envEncodeFail_final.2⟩

/-- The presentation state touched by `handleAnalyzeMapView`: the
`isMapViewLoading` busy flag, the `mapViewError` message, and the file
last handed to `onAnalyzeFromMap`. -/
structure UIState where
  isMapViewLoading : Bool
  mapViewError : Option String
  dispatched : Option CapturedFile

/-- The full `handleAnalyzeMapView` handler: the early return when no
map instance or no analysis bounds exists, then
`setIsMapViewLoading(true)` / `setMapViewError(null)`, the `try` body,
the `catch` that stores the user-facing message, and the `finally` that
clears the busy flag on every path. -/
def handleAnalyzeMapViewRun (hasMap hasBounds : Bool) (env : CaptureEnv)
    (s0 : UIState) : UIState :=
  if hasMap = false ∨ hasBounds = false then s0
  else
    let s1 : UIState := { s0 with isMapViewLoading := true, mapViewError := none }
    let s2 : UIState :=
      match (capture env).result with
      | .ok f => { s1 with dispatched := some f }
      | .error _ =>
        { s1 with mapViewError := some "Could not capture map view. Please try again." }
    { s2 with isMapViewLoading := false }

/-- C9: whenever the handler actually starts a capture, the busy flag is
false again when it returns, whichever of the exit paths (success or any
stage failure) the environment forces; the untriggered early return
leaves the state untouched. -/
theorem busy_flag_always_cleared (hasMap hasBounds : Bool) (env : CaptureEnv)
    (s0 : UIState) (h : hasMap = true ∧ hasBounds = true) :
    (handleAnalyzeMapViewRun hasMap hasBounds env s0).isMapViewLoading = false ∧
    ∀ hm hb : Bool, (hm = false ∨ hb = false) →
      handleAnalyzeMapViewRun hm hb env s0 = s0 := by
  constructor
  · unfold handleAnalyzeMapViewRun
    rw [if_neg (by rw [h.1, h.2]; simp)]
  · intro hm hb hor
    unfold handleAnalyzeMapViewRun
    rw [if_pos hor]

/-- Witness for C9 at a concrete environment (whose fetch fails) and a
concrete prior state. -/
theorem busy_flag_always_cleared_witness :
    (handleAnalyzeMapViewRun true true envFetchFail
      ⟨false, none, none⟩).isMapViewLoading = false ∧
    ∀ hm hb : Bool, (hm = false ∨ hb = false) →
      handleAnalyzeMapViewRun hm hb envFetchFail ⟨false, none, none⟩ =
        ⟨false, none, none⟩ :=
  busy_flag_always_cleared true true envFetchFail ⟨false, none, none⟩ ⟨rfl, rfl⟩

/-- A geographic coordinate (Leaflet `LatLng`). -/
structure LatLng where
  lat : ℚ
  lng : ℚ

/-- A geographic rectangle (Leaflet `LatLngBounds`), normalized to a
southwest and a northeast corner. -/
structure LatLngBounds where
  sw : LatLng
  ne : LatLng

/-- Leaflet's `toLatLngBounds` normalization of two corners. -/
def toLatLngBounds (c1 c2 : LatLng) : LatLngBounds :=
  ⟨⟨min c1.lat c2.lat, min c1.lng c2.lng⟩, ⟨max c1.lat c2.lat, max c1.lng c2.lng⟩⟩

/-- Leaflet's `LatLng.toBounds(sizeInMeters)`: a box of total side
`sizeInMeters` centered on the point.  `latAccuracy` converts half the
size to degrees of latitude via the 40075017-meter earth circumference;
`lngAccuracy` divides by the cosine of the latitude so the box stays
metrically square at any latitude.  The cosine of the center's latitude
is an input (`cosLat`), since the trigonometry belongs to the host
platform; it is positive for any latitude strictly between ±90°. -/
def LatLng.toBounds (c : LatLng) (cosLat : ℚ) (sizeInMeters : ℚ) : LatLngBounds :=
  let latAccuracy : ℚ := 180 * sizeInMeters / 40075017
  let lngAccuracy : ℚ := latAccuracy / cosLat
  toLatLngBounds ⟨c.lat - latAccuracy, c.lng - lngAccuracy⟩
    ⟨c.lat + latAccuracy, c.lng + lngAccuracy⟩

/-- The `updateAnalysisBounds` callback (MapComponent.tsx lines 115-125):
radius 0
clears the selection, a positive radius selects
`center.toBounds(radius * 2)`. -/
def updateAnalysisBounds (center : LatLng) (cosLat : ℚ) (radius : ℚ) :
    Option LatLngBounds :=
  if radius > 0 then some (center.toBounds cosLat (radius * 2)) else none

/-- Meters per degree along a meridian: the 40075017-meter circumference
over 360 degrees. -/
def metersPerDegree : ℚ := 40075017 / 360

/-- For a positive size and a positive latitude cosine, `toBounds`
normalizes to the symmetric box around the center. -/
theorem toBounds_pos (c : LatLng) (cosLat s : ℚ) (hs : 0 < s) (hc : 0 < cosLat) :
    c.toBounds cosLat s =
      ⟨⟨c.lat - 180 * s / 40075017, c.lng - 180 * s / 40075017 / cosLat⟩,
       ⟨c.lat + 180 * s / 40075017, c.lng + 180 * s / 40075017 / cosLat⟩⟩ := by
  have ha : (0 : ℚ) < 180 * s / 40075017 := by positivity
  have hb : (0 : ℚ) < 180 * s / 40075017 / cosLat := by positivity
  unfold LatLng.toBounds toLatLngBounds
  simp only
  rw [min_eq_left (by linarith), min_eq_left (by linarith),
    max_eq_right (by linarith), max_eq_right (by linarith)]

/-- C5: radius 0 yields no selection; a positive radius yields a box
centered on the given center whose north-south extent spans `2r` meters
and whose east-west extent also spans `2r` meters once the cosine
correction of its latitude is applied — a metrically square box at every
latitude. -/
theorem computeBounds_spec (center : LatLng) (cosLat r : ℚ)
    (hr : 0 < r) (hc : 0 < cosLat) :
    updateAnalysisBounds center cosLat 0 = none ∧
    ∃ b, updateAnalysisBounds center cosLat r = some b ∧
      (b.sw.lat + b.ne.lat) / 2 = center.lat ∧
      (b.sw.lng + b.ne.lng) / 2 = center.lng ∧
      (b.ne.lat - b.sw.lat) * metersPerDegree = 2 * r ∧
      (b.ne.lng - b.sw.lng) * cosLat * metersPerDegree = 2 * r := by
  have hpos := toBounds_pos center cosLat (r * 2) (by linarith) hc
  constructor
  · unfold updateAnalysisBounds
    rw [if_neg (by norm_num)]
  · refine ⟨center.toBounds cosLat (r * 2), ?_, ?_, ?_, ?_, ?_⟩
    · unfold updateAnalysisBounds
      rw [if_pos hr]
    all_goals
      rw [hpos]
      simp only
    · ring
    · ring
    · unfold metersPerDegree
      field_simp
      ring
    · unfold metersPerDegree
      field_simp
      ring

/-- Witness for C5 at a concrete center, cosine and radius. -/
theorem computeBounds_spec_witness :
    updateAnalysisBounds ⟨10, 20⟩ (1/2) 0 = none ∧
    ∃ b, updateAnalysisBounds ⟨10, 20⟩ (1/2) 100 = some b ∧
      (b.sw.lat + b.ne.lat) / 2 = (10 : ℚ) ∧
      (b.sw.lng + b.ne.lng) / 2 = (20 : ℚ) ∧
      (b.ne.lat - b.sw.lat) * metersPerDegree = 2 * 100 ∧
      (b.ne.lng - b.sw.lng) * (1/2) * metersPerDegree = 2 * 100 :=
  computeBounds_spec ⟨10, 20⟩ (1/2) 100 (by norm_num) (by norm_num)

/-- The `handleGetInsights` handler (MapComponent.tsx lines 168-194): the
bounding
box sent to `getMapInsights` is `center.toBounds(10000 * 2)` — a fixed
10-km-radius box around the map center.  The component's analysis-radius
slider value and current analysis bounds are in scope but never
consulted. -/
def handleGetInsightsBounds (center : LatLng) (cosLat : ℚ) (radius : ℚ)
    (analysisBounds : Option LatLngBounds) : LatLngBounds :=
  center.toBounds cosLat (10000 * 2)

/-- C10: the insights box is the fixed 20000-meter-side box around the
map center — identical for every slider radius and every analysis
bounds, centered on the center, spanning 20000 meters on each side. -/
theorem insights_bounds_fixed (center : LatLng) (cosLat : ℚ)
    (r r' : ℚ) (ab ab' : Option LatLngBounds) (hc : 0 < cosLat) :
    handleGetInsightsBounds center cosLat r ab =
      handleGetInsightsBounds center cosLat r' ab' ∧
    handleGetInsightsBounds center cosLat r ab = center.toBounds cosLat 20000 ∧
    ((handleGetInsightsBounds center cosLat r ab).sw.lat +
      (handleGetInsightsBounds center cosLat r ab).ne.lat) / 2 = center.lat ∧
    ((handleGetInsightsBounds center cosLat r ab).sw.lng +
      (handleGetInsightsBounds center cosLat r ab).ne.lng) / 2 = center.lng ∧
    ((handleGetInsightsBounds center cosLat r ab).ne.lat -
      (handleGetInsightsBounds center cosLat r ab).sw.lat) * metersPerDegree = 20000 ∧
    ((handleGetInsightsBounds center cosLat r ab).ne.lng -
      (handleGetInsightsBounds center cosLat r ab).sw.lng) * cosLat *
        metersPerDegree = 20000 := by
  have hpos := toBounds_pos center cosLat (10000 * 2) (by norm_num) hc
  refine ⟨rfl, by norm_num [handleGetInsightsBounds], ?_, ?_, ?_, ?_⟩
  all_goals
    unfold handleGetInsightsBounds
    rw [hpos]
    simp only
  · ring
  · ring
  · unfold metersPerDegree
    field_simp
    ring
  · unfold metersPerDegree
    field_simp
    ring

/-- Witness for C10 at a concrete center, cosine, radii and analysis
bounds. -/
theorem insights_bounds_fixed_witness :
    handleGetInsightsBounds ⟨10, 20⟩ (1/2) 100 none =
      handleGetInsightsBounds ⟨10, 20⟩ (1/2) 2000 (some ⟨⟨0, 0⟩, ⟨1, 1⟩⟩) ∧
    handleGetInsightsBounds ⟨10, 20⟩ (1/2) 100 none =
      LatLng.toBounds ⟨10, 20⟩ (1/2) 20000 ∧
    ((handleGetInsightsBounds ⟨10, 20⟩ (1/2) 100 none).sw.lat +
      (handleGetInsightsBounds ⟨10, 20⟩ (1/2) 100 none).ne.lat) / 2 = (10 : ℚ) ∧
    ((handleGetInsightsBounds ⟨10, 20⟩ (1/2) 100 none).sw.lng +
      (handleGetInsightsBounds ⟨10, 20⟩ (1/2) 100 none).ne.lng) / 2 = (20 : ℚ) ∧
    ((handleGetInsightsBounds ⟨10, 20⟩ (1/2) 100 none).ne.lat -
      (handleGetInsightsBounds ⟨10, 20⟩ (1/2) 100 none).sw.lat) * metersPerDegree = 20000 ∧
    ((handleGetInsightsBounds ⟨10, 20⟩ (1/2) 100 none).ne.lng -
      (handleGetInsightsBounds ⟨10, 20⟩ (1/2) 100 none).sw.lng) * (1/2) *
        metersPerDegree = 20000 :=
  insights_bounds_fixed ⟨10, 20⟩ (1/2) 100 2000 none (some ⟨⟨0, 0⟩, ⟨1, 1⟩⟩) (by norm_num)

/-- The `inlineData` field of a generative-AI response part: a MIME type
and
base64 payload. -/
structure InlineData where
  mimeType : String
  data : String

/-- One part of a generative-AI response: optional text, optional
inline image data. -/
structure ResponsePart where
  text : Option String
  inlineData : Option InlineData

/-- The content of one response candidate. -/
structure Content where
  parts : List ResponsePart

/-- One response candidate. -/
structure Candidate where
  content : Content

/-- A generative-AI response: a possibly empty candidate list. -/
structure GenResponse where
  candidates : List Candidate

/-- Per-category land-use percentages (types.ts `LandUsePercentages`). -/
structure LandUsePercentages where
  building : ℚ
  road : ℚ
  land : ℚ
  vegetation : ℚ
  water : ℚ
  unlabeled : ℚ

/-- The value returned by `analyzeImageForBiodiversity`
(types.ts `BiodiversityAnalysisResult`). -/
structure BiodiversityAnalysisResult where
  percentages : LandUsePercentages
  segmentedImage : String

/-- One iteration of the part loop of `analyzeImageForBiodiversity`
(geminiService.ts lines 43-61): a truthy text part runs the JSON
extraction (the two regex attempts are abstracted as `extract`,
returning `none` when neither matches) and overwrites `jsonString` on a
match; otherwise a present `inlineData` overwrites the segmented image
and its MIME type. -/
def scanPart (extract : String → Option String) (acc : String × String × String)
    (p : ResponsePart) : String × String × String :=
  match p.text with
  | some s =>
    if s = "" then
      match p.inlineData with
      | some d => (acc.1, d.data, d.mimeType)
      | none => acc
    else
      match extract s with
      | some j => (j, acc.2.1, acc.2.2)
      | none => acc
  | none =>
    match p.inlineData with
    | some d => (acc.1, d.data, d.mimeType)
    | none => acc

/-- The `(jsonString, segmentedImage, segmentedImageMimeType)` triple
after the part loop, starting from `('', '', 'image/png')`; an absent or
empty candidate list leaves the initial values. -/
def extractedParts (resp : GenResponse) (extract : String → Option String) :
    String × String × String :=
  match resp.candidates.head? with
  | some c => c.content.parts.foldl (scanPart extract) ("", "", "image/png")
  | none => ("", "", "image/png")

/-- Function `analyzeImageForBiodiversity` (geminiService.ts lines 38-78)
after
the model call: throws when the JSON string or the segmented image is
missing, then parses the JSON (`parse` abstracts `JSON.parse`, `none`
meaning a parse exception) and packages the result with a data URL. -/
def analyzeImageForBiodiversity (resp : GenResponse)
    (extract : String → Option String)
    (parse : String → Option LandUsePercentages) :
    Except String BiodiversityAnalysisResult :=
  let acc := extractedParts resp extract
  if acc.1 = "" ∨ acc.2.1 = "" then
    .error "Failed to get complete analysis from the API. Missing JSON or segmented image."
  else
    match parse acc.1 with
    | some ps => .ok ⟨ps, "data:" ++ acc.2.2 ++ ";base64," ++ acc.2.1⟩
    | none => .error "Failed to parse analysis data from the API."

/-- The `handleAnalysis` callback of AnalysisSection.tsx (lines 58-84),
result
handling: on success the analysis-result state holds the value and the
error state is clear; on any thrown error the analysis-result state
stays empty and the user-facing message is set. -/
def handleAnalysisState (r : Except String BiodiversityAnalysisResult) :
    Option BiodiversityAnalysisResult × Option String :=
  match r with
  | .ok res => (some res, none)
  | .error _ => (none, some "Failed to analyze the image. Please try again.")

/-- C8: if the percentage JSON or the segmented image is absent from the
response, the operation fails and no segmented-image UI state is
populated; a result is returned only when both parts are present and the
percentage JSON parses, and then the UI state holds it. -/
theorem ai_response_requires_both (resp : GenResponse)
    (extract : String → Option String)
    (parse : String → Option LandUsePercentages) :
    (((extractedParts resp extract).1 = "" ∨ (extractedParts resp extract).2.1 = "") →
      (∃ e, analyzeImageForBiodiversity resp extract parse = .error e) ∧
      (handleAnalysisState (analyzeImageForBiodiversity resp extract parse)).1 = none) ∧
    (∀ r, analyzeImageForBiodiversity resp extract parse = .ok r →
      (extractedParts resp extract).1 ≠ "" ∧ (extractedParts resp extract).2.1 ≠ "" ∧
      (∃ ps, parse (extractedParts resp extract).1 = some ps ∧ r.percentages = ps) ∧
      handleAnalysisState (analyzeImageForBiodiversity resp extract parse) =
        (some r, none)) := by
  constructor
  · intro h
    have herr : analyzeImageForBiodiversity resp extract parse =
        .error "Failed to get complete analysis from the API. Missing JSON or segmented image." := by
      unfold analyzeImageForBiodiversity
      rw [if_pos h]
    rw [herr]
    exact ⟨⟨_, rfl⟩, rfl⟩
  · intro r hr
    by_cases h : (extractedParts resp extract).1 = "" ∨ (extractedParts resp extract).2.1 = ""
    · rw [show analyzeImageForBiodiversity resp extract parse =
          .error "Failed to get complete analysis from the API. Missing JSON or segmented image." by
            unfold analyzeImageForBiodiversity; rw [if_pos h]] at hr
      exact Except.noConfusion hr
    · push_neg at h
      refine ⟨h.1, h.2, ?_, ?_⟩
      · rcases hp : parse (extractedParts resp extract).1 with _ | ps
        · rw [show analyzeImageForBiodiversity resp extract parse =
              .error "Failed to parse analysis data from the API." by
                unfold analyzeImageForBiodiversity
                rw [if_neg (by tauto)]
                simp only [hp]] at hr
          exact Except.noConfusion hr
        · refine ⟨ps, rfl, ?_⟩
          rw [show analyzeImageForBiodiversity resp extract parse =
              .ok ⟨ps, "data:" ++ (extractedParts resp extract).2.2 ++ ";base64," ++
                (extractedParts resp extract).2.1⟩ by
                unfold analyzeImageForBiodiversity
                rw [if_neg (by tauto)]
                simp only [hp]] at hr
          rw [← Except.ok.inj hr]
      · rw [hr]
        rfl

/-- A response containing one JSON text part and no image part. -/
def respNoImage : GenResponse :=
  ⟨[⟨⟨[⟨some "jsonpayload", none⟩]⟩⟩]⟩

/-- An extraction function that accepts any text as the JSON match. -/
def extractSelf : String → Option String := fun s => some s

/-- A parser that accepts any string. -/
def parseConst : String → Option LandUsePercentages :=
  fun _ => some ⟨0, 0, 0, 0, 0, 0⟩

/-- Witness for C8: a concrete response whose image part is missing
makes the operation fail and leaves the segmented-image UI state
empty. -/
theorem ai_response_requires_both_witness :
    (∃ e, analyzeImageForBiodiversity respNoImage extractSelf parseConst = .error e) ∧
    (handleAnalysisState
      (analyzeImageForBiodiversity respNoImage extractSelf parseConst)).1 = none :=
  (ai_response_requires_both respNoImage extractSelf parseConst).1 (Or.inr rfl)

end GIS
